import Mathlib

/-!
# Configuration resolution of `config/config.go`

A shallow embedding of the `config` package: the configuration schema, the
post-processing step `SetupConfig`, the local discovery `getLocalConfig` /
`lookupProjectRoot`, and the resolver `Get`.

Conventions of the embedding.

* A Go pointer to a record (`*Server`, `*Default`, ...) is an `Option`: `none`
  is the nil pointer.  No function of the package writes through a `*Server`,
  and the pointers that are written through (`c.Default`, `c.REPL`, `c.Env`,
  `c`) have pairwise different pointee types, so value semantics loses no
  aliasing effect; the assignment `c.REPL.Server = c.Server` copies the
  (optional) value.
* A Go slice is a `List`; the nil slice and the empty slice are both `[]`.
* A function that can panic returns `Except Panic _`.
* A function returning `(x, error)` returns a pair whose second component is an
  `Option GoError` (`none` is the nil error).
* The operating system, the `git` subprocess and the third-party decoders are
  the fields of a `World`.
-/

namespace Evans

/-! ## Data model (config.go, lines 24-85) -/

structure Server where
  Host : String
  Port : String
  Reflection : Bool
  TLS : Bool
deriving DecidableEq, Repr

structure Header where
  Key : String
  Val : String
deriving DecidableEq, Repr

structure Request where
  Header : List Header
  Web : Bool
deriving DecidableEq, Repr

structure REPL where
  Server : Option Server
  PromptFormat : String
  ColoredOutput : Bool
  ShowSplashText : Bool
  SplashTextPath : String
deriving DecidableEq, Repr

structure Env where
  Server : Option Server
deriving DecidableEq, Repr

structure Input where
  PromptFormat : String
deriving DecidableEq, Repr

structure Meta where
  Path : String
  AutoUpdate : Bool
  UpdateLevel : String
deriving DecidableEq, Repr

structure Default where
  ProtoPath : List String
  ProtoFile : List String
  Package : String
  Service : String
deriving DecidableEq, Repr

structure Log where
  Prefix : String
deriving DecidableEq, Repr

structure Config where
  Default : Option Default
  Meta : Option Meta
  REPL : Option REPL
  Env : Option Env
  Server : Option Server
  Log : Option Log
  Request : Option Request
  Input : Option Input
deriving DecidableEq, Repr

/-- A Go `error` value: its message and whether `os.IsNotExist` holds of it. -/
structure GoError where
  notExist : Bool
  msg : String
deriving DecidableEq, Repr

/-- The ways a call can abort: `panic(err)` with an error value, or the runtime
panic of dereferencing a nil pointer. -/
inductive Panic where
  | err (e : GoError)
  | nilDeref
deriving DecidableEq, Repr

/-! ## SetupConfig (config.go, lines 111-133) -/

/-- The Request literal of lines 121-125: one header, grpc-client = evans. -/
def defaultRequest : Request :=
  { Header := [{ Key := "grpc-client", Val := "evans" }], Web := false }

/-- The Input literal of lines 129-131. -/
def defaultInput : Input :=
  { PromptFormat := "\x7bancestor\x7d\x7bname\x7d (\x7btype\x7d) => " }

/-- The test of lines 112 and 115: the slice has length 1 and its element 0 is
the empty string. -/
def isPlaceholder (xs : List String) : Bool :=
  xs.length == 1 && xs[0]? == some ""

/-- The function `SetupConfig(c)`, returning the record `c` points to after the
call.  The dereferences of `c.Default`, `c.REPL` and `c.Env` panic on a nil
pointer, in source order. -/
def SetupConfig (c : Config) : Except Panic Config :=
  match c.Default with
  | none => .error .nilDeref
  | some d =>
    let d1 : Default := if isPlaceholder d.ProtoFile then { d with ProtoFile := [] } else d
    let d2 : Default := if isPlaceholder d1.ProtoPath then { d1 with ProtoPath := [] } else d1
    match c.REPL with
    | none => .error .nilDeref
    | some r =>
      let r1 : REPL := { r with Server := c.Server }
      match c.Env with
      | none => .error .nilDeref
      | some e =>
        let e1 : Env := { e with Server := c.Server }
        let req : Option Request :=
          match c.Request with
          | none => some defaultRequest
          | some q => some q
        let inp : Option Input :=
          match c.Input with
          | none => some defaultInput
          | some i => some i
        .ok { c with Default := some d2, REPL := some r1, Env := some e1,
                     Request := req, Input := inp }

/-! ## The environment of the package -/

/-- The value of an `io.ReadCloser` interface that is not the nil interface:
an open file with its content, or the nil `*os.File` that `os.Open` returns
next to an error (wrapped in the interface by `return os.Open(p)`, it does not
compare equal to nil). -/
inductive ReadCloser where
  | file (content : String)
  | nilFile
deriving DecidableEq, Repr

/-- Everything the package reads from outside itself. -/
structure World where
  /-- The result of `os.Stat(path)`: its error, `none` when the call succeeds. -/
  stat : String → Option GoError
  /-- The result of `os.Open(path)`: the content of the opened file, or the error. -/
  openFile : String → Except GoError String
  /-- The result of `cmd.Run()` for `git rev-parse --show-cdup`. -/
  gitRun : Option GoError
  /-- What the command wrote to `outBuf`. -/
  gitStdout : String
  /-- What the command wrote to `errBuf`. -/
  gitStderr : String
  /-- The library function `filepath.Join`. -/
  filepathJoin : String → String → String
  /-- The library function `toml.DecodeReader(f, &conf)`, from the content read
  to the record left in `conf` and the error returned. -/
  tomlDecode : String → Config × Option GoError
  /-- The result of `mapstructure.Decode(mConfig.Get(), &global)`. -/
  decodeGlobal : Except GoError Config
  /-- The library function `mapstruct.Map(&global, local)`. -/
  mapstructMap : Config → Config → Except GoError Config

/-- The package variable `localConfigName`. -/
def localConfigName : String := ".evans.toml"

/-- The library predicate `os.IsNotExist(err)`, false of the nil error. -/
def isNotExist : Option GoError → Bool
  | none => false
  | some e => e.notExist

/-- The library function `errors.New(text)`. -/
def errorsNew (text : String) : GoError := { notExist := false, msg := text }

/-- The conversion of the two results of `os.Open` to `(io.ReadCloser, error)`. -/
def openResult : Except GoError String → Option ReadCloser × Option GoError
  | .ok content => (some (.file content), none)
  | .error e => (some .nilFile, some e)

/-! ## lookupProjectRoot (config.go, lines 193-209) -/

def lookupProjectRoot (w : World) : Option ReadCloser × Option GoError :=
  match w.gitRun with
  | some err => (none, some err)
  | none =>
    if w.gitStderr.utf8ByteSize ≠ 0 then
      (none, some (errorsNew w.gitStderr))
    else
      let p := w.filepathJoin w.gitStdout localConfigName
      if isNotExist (w.stat p) then
        (none, none)
      else
        openResult (w.openFile p)

/-! ## getLocalConfig (config.go, lines 168-191) -/

def getLocalConfig (w : World) : Option Config × Option GoError :=
  match w.stat localConfigName with
  | some err =>
    if isNotExist (some err) then
      match lookupProjectRoot w with
      | (f, err1) =>
        if f = none ∨ err1 ≠ none then
          (none, none)
        else
          -- `defer f.Close()`, then the `return nil, err` of line 179 with the
          -- `err` that line 172 assigned
          (none, err1)
    else
      (none, some err)
  | none =>
    match w.openFile localConfigName with
    | .error err => (none, some err)
    | .ok content =>
      match w.tomlDecode content with
      | (conf, err) => (some conf, err)

/-! ## Get (config.go, lines 135-162) -/

def Get (w : World) : Except Panic Config :=
  match w.decodeGlobal with
  | .error err => .error (.err err)
  | .ok global =>
    match getLocalConfig w with
    | (_, some err) => .error (.err err)
    | (none, none) => SetupConfig global
    | (some loc, none) =>
      match w.mapstructMap global loc with
      | .error err => .error (.err err)
      | .ok c => SetupConfig c

/-! ## Auxiliary definitions for the statements -/

/-- The list left by lines 112-117 in place of `xs`. -/
def normalized (xs : List String) : List String :=
  if isPlaceholder xs then [] else xs

/-- A fully populated global configuration, with the defaults of the schema
tags and the seeded placeholders of `init`. -/
def sampleGlobal : Config :=
  { Default := some { ProtoPath := [""], ProtoFile := [""], Package := "", Service := "" },
    Meta := some { Path := "~/.config/evans/config.toml", AutoUpdate := false,
                   UpdateLevel := "patch" },
    REPL := some { Server := none, PromptFormat := "repl> ", ColoredOutput := true,
                   ShowSplashText := true, SplashTextPath := "" },
    Env := some { Server := none },
    Server := some { Host := "127.0.0.1", Port := "50051", Reflection := false, TLS := false },
    Log := some { Prefix := "[evans] " },
    Request := some defaultRequest,
    Input := some defaultInput }

/-- What `SetupConfig` makes of `sampleGlobal`. -/
def sampleResolved : Config :=
  { sampleGlobal with
    Default := some { ProtoPath := [], ProtoFile := [], Package := "", Service := "" },
    REPL := some { Server := sampleGlobal.Server, PromptFormat := "repl> ",
                   ColoredOutput := true, ShowSplashText := true, SplashTextPath := "" },
    Env := some { Server := sampleGlobal.Server } }

/-- The record `sampleGlobal` with REPL.Server and Env.Server pointing at two
other servers, as a decode or merge may leave them. -/
def staleLinks : Config :=
  { sampleGlobal with
    REPL := some { Server := some { Host := "10.0.0.1", Port := "1", Reflection := true,
                                    TLS := true },
                   PromptFormat := "repl> ", ColoredOutput := true, ShowSplashText := true,
                   SplashTextPath := "" },
    Env := some { Server := none } }

/-- A configuration whose ProtoFile is the placeholder and whose ProtoPath is not. -/
def mixedPlaceholders : Config :=
  { sampleGlobal with
    Default := some { ProtoPath := ["", "vendor"], ProtoFile := [""], Package := "api",
                      Service := "" } }

/-- What `SetupConfig` makes of `mixedPlaceholders`. -/
def mixedPlaceholdersResolved : Config :=
  { sampleResolved with
    Default := some { ProtoPath := ["", "vendor"], ProtoFile := [], Package := "api",
                      Service := "" } }

/-- The configuration with every sub-record nil. -/
def zeroConfig : Config :=
  { Default := none, Meta := none, REPL := none, Env := none, Server := none,
    Log := none, Request := none, Input := none }

/-- The error of a path that does not exist. -/
def enoent : GoError := { notExist := true, msg := "no such file or directory" }

/-- The error of a path that may not be read. -/
def eacces : GoError := { notExist := false, msg := "permission denied" }

/-- The error of `cmd.Run()` when git exits with status 128. -/
def exit128 : GoError := { notExist := false, msg := "exit status 128" }

/-- A decode error of the TOML library. -/
def badToml : GoError := { notExist := false, msg := "toml: expected key separator" }

/-- The join of a non-empty directory and a name with one separator; it agrees
with `filepath.Join` on the arguments used below. -/
def joinPath (dir name : String) : String := dir ++ "/" ++ name

/-- The path of the override file one directory up, as line 204 builds it from
the line that git prints. -/
def rootPath : String := "../\n/.evans.toml"

/-- A process outside any working tree, with no override file anywhere, whose
global configuration decodes to `g`. -/
def outsideWorkTree (g : Config) : World :=
  { stat := fun _ => some enoent,
    openFile := fun _ => .error enoent,
    gitRun := some exit128,
    gitStdout := "",
    gitStderr := "fatal: not a git repository (or any of the parent directories): .git",
    filepathJoin := joinPath,
    tomlDecode := fun _ => (zeroConfig, none),
    decodeGlobal := .ok g,
    mapstructMap := fun a _ => .ok a }

/-- A process one directory below the root of a working tree: no override file
in the current directory, one at `rootPath` that opens with `content`, which
the TOML library decodes to `decoded`. -/
def belowRoot (g : Config) (content : String) (decoded : Config × Option GoError) : World :=
  { stat := fun p => if p = rootPath then none else some enoent,
    openFile := fun p => if p = rootPath then .ok content else .error enoent,
    gitRun := none,
    gitStdout := "../\n",
    gitStderr := "",
    filepathJoin := joinPath,
    tomlDecode := fun _ => decoded,
    decodeGlobal := .ok g,
    mapstructMap := fun _ l => .ok l }

/-- The local record of a file that sets only `tls = true` under `[server]`. -/
def onlyTLS : Config :=
  { zeroConfig with
    Server := some { Host := "", Port := "", Reflection := false, TLS := true } }

/-- As `belowRoot`, but the override file at `rootPath`, which exists, may not
be opened. -/
def belowRootUnreadable (g : Config) : World :=
  { belowRoot g "" (zeroConfig, none) with
    openFile := fun p => if p = rootPath then .error eacces else .error enoent }

/-- A process whose current directory may not be searched: `os.Stat` of the
override file fails with an error other than not-exist. -/
def cwdStatDenied (g : Config) : World :=
  { outsideWorkTree g with stat := fun _ => some eacces }

/-- A process whose current directory holds an override file that may not be
opened. -/
def cwdUnreadable (g : Config) : World :=
  { outsideWorkTree g with
    stat := fun p => if p = localConfigName then none else some enoent,
    openFile := fun p => if p = localConfigName then .error eacces else .error enoent }

/-- A global configuration whose Request is present with no header. -/
def emptyHeaderGlobal : Config :=
  { sampleGlobal with Request := some { Header := [], Web := true } }

/-! ## The merge engine

`mapstruct.Map` belongs to a third-party library whose source is not part of
the package.  The definitions of this section follow section 4.3 of the
specification. -/

/-- Modelled from the spec: the overlay of a string field, which is missing from
the sources (third-party `mapstruct`).  A local value equal to the zero value
of the type (the empty string) is unset and the global value is retained;
any other local value replaces it. -/
def overlayString (g l : String) : String := if l = "" then g else l

/-- Modelled from the spec: the overlay of a boolean field (third-party
`mapstruct`, missing from the sources); the zero value is `false`. -/
def overlayBool (g l : Bool) : Bool := if l = false then g else l

/-- Modelled from the spec: the overlay of an ordered list (third-party
`mapstruct`, missing from the sources): replaced wholesale when the local
record sets it, no element-wise merge; the zero value is the empty list. -/
def overlayList {α : Type} (g l : List α) : List α := if l.isEmpty then g else l

/-- Modelled from the spec: the overlay of a nested record held by pointer
(third-party `mapstruct`, missing from the sources).  A nil local pointer is
unset; a local record over a nil global pointer is taken as it is; two
records are overlaid recursively by `f`. -/
def overlayPtr {α : Type} (f : α → α → α) : Option α → Option α → Option α
  | g, none => g
  | none, some l => some l
  | some g, some l => some (f g l)

/-- Modelled from the spec: the recursive overlay on `Server` (third-party
`mapstruct`, missing from the sources). -/
def overlayServer (g l : Server) : Server :=
  { Host := overlayString g.Host l.Host,
    Port := overlayString g.Port l.Port,
    Reflection := overlayBool g.Reflection l.Reflection,
    TLS := overlayBool g.TLS l.TLS }

/-- Modelled from the spec: the recursive overlay on `Default` (third-party
`mapstruct`, missing from the sources). -/
def overlayDefault (g l : Default) : Default :=
  { ProtoPath := overlayList g.ProtoPath l.ProtoPath,
    ProtoFile := overlayList g.ProtoFile l.ProtoFile,
    Package := overlayString g.Package l.Package,
    Service := overlayString g.Service l.Service }

/-- Modelled from the spec: the recursive overlay on `Meta` (third-party
`mapstruct`, missing from the sources). -/
def overlayMeta (g l : Meta) : Meta :=
  { Path := overlayString g.Path l.Path,
    AutoUpdate := overlayBool g.AutoUpdate l.AutoUpdate,
    UpdateLevel := overlayString g.UpdateLevel l.UpdateLevel }

/-- Modelled from the spec: the recursive overlay on `REPL` (third-party
`mapstruct`, missing from the sources). -/
def overlayREPL (g l : REPL) : REPL :=
  { Server := overlayPtr overlayServer g.Server l.Server,
    PromptFormat := overlayString g.PromptFormat l.PromptFormat,
    ColoredOutput := overlayBool g.ColoredOutput l.ColoredOutput,
    ShowSplashText := overlayBool g.ShowSplashText l.ShowSplashText,
    SplashTextPath := overlayString g.SplashTextPath l.SplashTextPath }

/-- Modelled from the spec: the recursive overlay on `Env` (third-party
`mapstruct`, missing from the sources). -/
def overlayEnv (g l : Env) : Env :=
  { Server := overlayPtr overlayServer g.Server l.Server }

/-- Modelled from the spec: the recursive overlay on `Log` (third-party
`mapstruct`, missing from the sources). -/
def overlayLog (g l : Log) : Log :=
  { Prefix := overlayString g.Prefix l.Prefix }

/-- Modelled from the spec: the recursive overlay on `Request` (third-party
`mapstruct`, missing from the sources). -/
def overlayRequest (g l : Request) : Request :=
  { Header := overlayList g.Header l.Header,
    Web := overlayBool g.Web l.Web }

/-- Modelled from the spec: the recursive overlay on `Input` (third-party
`mapstruct`, missing from the sources). -/
def overlayInput (g l : Input) : Input :=
  { PromptFormat := overlayString g.PromptFormat l.PromptFormat }

/-- Modelled from the spec: the merge engine `Merge(global, local)` of section
4.3, the contract of the third-party `mapstruct.Map`, whose source is missing:
a structural overlay of `l` on `g`, recursive through the nested records. -/
def specMerge (g l : Config) : Config :=
  { Default := overlayPtr overlayDefault g.Default l.Default,
    Meta := overlayPtr overlayMeta g.Meta l.Meta,
    REPL := overlayPtr overlayREPL g.REPL l.REPL,
    Env := overlayPtr overlayEnv g.Env l.Env,
    Server := overlayPtr overlayServer g.Server l.Server,
    Log := overlayPtr overlayLog g.Log l.Log,
    Request := overlayPtr overlayRequest g.Request l.Request,
    Input := overlayPtr overlayInput g.Input l.Input }

/-- A process whose current directory holds an override file with `content`,
decoded by the TOML library to `decoded`, and whose `mapstruct.Map` is the
merge engine of the specification. -/
def withCwdFile (g : Config) (content : String) (decoded : Config × Option GoError) : World :=
  { stat := fun p => if p = localConfigName then none else some enoent,
    openFile := fun p => if p = localConfigName then .ok content else .error enoent,
    gitRun := some exit128,
    gitStdout := "",
    gitStderr := "fatal: not a git repository (or any of the parent directories): .git",
    filepathJoin := joinPath,
    tomlDecode := fun _ => decoded,
    decodeGlobal := .ok g,
    mapstructMap := fun a b => .ok (specMerge a b) }

/-! ## Predicates of the merge statements -/

/-- The overlay rule on one field whose zero value is `zero`: the result `cv`
keeps the global value `gv` when the local value `lv` is the zero value and
takes `lv` otherwise. -/
def Overlaid {α : Type} (zero gv lv cv : α) : Prop :=
  (lv = zero → cv = gv) ∧ (lv ≠ zero → cv = lv)

/-- The overlay rule on a field holding a pointer to a record: a nil local
pointer keeps the global one, a local record over a nil global pointer is
taken, and two records satisfy the rule `P` of the pointee field by field. -/
def PtrOverlaid {α : Type} (P : α → α → α → Prop) (g l c : Option α) : Prop :=
  (l = none → c = g) ∧ (g = none → c = l) ∧
    (∀ gr lr, g = some gr → l = some lr → ∃ cr, c = some cr ∧ P gr lr cr)

def ServerOverlaid (g l c : Server) : Prop :=
  Overlaid "" g.Host l.Host c.Host ∧ Overlaid "" g.Port l.Port c.Port ∧
    Overlaid false g.Reflection l.Reflection c.Reflection ∧
    Overlaid false g.TLS l.TLS c.TLS

def DefaultOverlaid (g l c : Default) : Prop :=
  Overlaid [] g.ProtoPath l.ProtoPath c.ProtoPath ∧
    Overlaid [] g.ProtoFile l.ProtoFile c.ProtoFile ∧
    Overlaid "" g.Package l.Package c.Package ∧ Overlaid "" g.Service l.Service c.Service

def MetaOverlaid (g l c : Meta) : Prop :=
  Overlaid "" g.Path l.Path c.Path ∧ Overlaid false g.AutoUpdate l.AutoUpdate c.AutoUpdate ∧
    Overlaid "" g.UpdateLevel l.UpdateLevel c.UpdateLevel

def REPLOverlaid (g l c : REPL) : Prop :=
  PtrOverlaid ServerOverlaid g.Server l.Server c.Server ∧
    Overlaid "" g.PromptFormat l.PromptFormat c.PromptFormat ∧
    Overlaid false g.ColoredOutput l.ColoredOutput c.ColoredOutput ∧
    Overlaid false g.ShowSplashText l.ShowSplashText c.ShowSplashText ∧
    Overlaid "" g.SplashTextPath l.SplashTextPath c.SplashTextPath

def EnvOverlaid (g l c : Env) : Prop :=
  PtrOverlaid ServerOverlaid g.Server l.Server c.Server

def LogOverlaid (g l c : Log) : Prop :=
  Overlaid "" g.Prefix l.Prefix c.Prefix

def RequestOverlaid (g l c : Request) : Prop :=
  Overlaid [] g.Header l.Header c.Header ∧ Overlaid false g.Web l.Web c.Web

def InputOverlaid (g l c : Input) : Prop :=
  Overlaid "" g.PromptFormat l.PromptFormat c.PromptFormat

/-- The overlay rule on every field of a configuration. -/
def ConfigOverlaid (g l c : Config) : Prop :=
  PtrOverlaid DefaultOverlaid g.Default l.Default c.Default ∧
    PtrOverlaid MetaOverlaid g.Meta l.Meta c.Meta ∧
    PtrOverlaid REPLOverlaid g.REPL l.REPL c.REPL ∧
    PtrOverlaid EnvOverlaid g.Env l.Env c.Env ∧
    PtrOverlaid ServerOverlaid g.Server l.Server c.Server ∧
    PtrOverlaid LogOverlaid g.Log l.Log c.Log ∧
    PtrOverlaid RequestOverlaid g.Request l.Request c.Request ∧
    PtrOverlaid InputOverlaid g.Input l.Input c.Input

/-- What `SetupConfig` leaves as it found it, from its argument `m` to its
result `c`: Server, Meta and Log; in Default, Package and Service, and each of
ProtoFile and ProtoPath unless it is the placeholder; in REPL every field but
Server; Request and Input when present. -/
def SetupFrame (m c : Config) : Prop :=
  c.Server = m.Server ∧ c.Meta = m.Meta ∧ c.Log = m.Log ∧
    (∀ q, m.Request = some q → c.Request = some q) ∧
    (∀ i, m.Input = some i → c.Input = some i) ∧
    (∃ dm dc, m.Default = some dm ∧ c.Default = some dc ∧
      dc.Package = dm.Package ∧ dc.Service = dm.Service ∧
      (dm.ProtoFile ≠ [""] → dc.ProtoFile = dm.ProtoFile) ∧
      (dm.ProtoPath ≠ [""] → dc.ProtoPath = dm.ProtoPath)) ∧
    (∃ rm rc, m.REPL = some rm ∧ c.REPL = some rc ∧
      rc.PromptFormat = rm.PromptFormat ∧ rc.ColoredOutput = rm.ColoredOutput ∧
      rc.ShowSplashText = rm.ShowSplashText ∧ rc.SplashTextPath = rm.SplashTextPath)

/-- What `Get` returns for `sampleGlobal` under a local file that sets only
`tls = true`. -/
def sampleWithTLS : Config :=
  { sampleResolved with
    Server := some { Host := "127.0.0.1", Port := "50051", Reflection := false, TLS := true },
    REPL := some { Server := some { Host := "127.0.0.1", Port := "50051",
                                    Reflection := false, TLS := true },
                   PromptFormat := "repl> ", ColoredOutput := true, ShowSplashText := true,
                   SplashTextPath := "" },
    Env := some { Server := some { Host := "127.0.0.1", Port := "50051",
                                   Reflection := false, TLS := true } } }

/-! ## Properties of SetupConfig -/

theorem isPlaceholder_iff (xs : List String) : isPlaceholder xs = true ↔ xs = [""] := by
  cases xs with
  | nil => simp [isPlaceholder]
  | cons x t =>
    cases t with
    | nil => simp [isPlaceholder]
    | cons y u => simp [isPlaceholder]

theorem normalized_eq (xs : List String) :
    normalized xs = if xs = [""] then [] else xs := by
  unfold normalized
  by_cases h : xs = [""]
  · simp [h, (isPlaceholder_iff _).2]
  · have : isPlaceholder xs = false := by
      cases hp : isPlaceholder xs with
      | false => rfl
      | true => exact absurd ((isPlaceholder_iff xs).1 hp) h
    simp [h, this]

theorem normalized_ne_placeholder (xs : List String) : normalized xs ≠ [""] := by
  rw [normalized_eq]
  by_cases h : xs = [""]
  · simp [h]
  · simp [h]

theorem isPlaceholder_normalized (xs : List String) : isPlaceholder (normalized xs) = false := by
  cases hp : isPlaceholder (normalized xs) with
  | false => rfl
  | true => exact absurd ((isPlaceholder_iff _).1 hp) (normalized_ne_placeholder xs)

theorem exists_of_ne_none {α : Type} (o : Option α) (h : o ≠ none) : ∃ x, o = some x := by
  cases o with
  | none => exact absurd rfl h
  | some x => exact ⟨x, rfl⟩

/-- The record a completed `SetupConfig` leaves, field by field. -/
theorem SetupConfig_ok (c c' : Config) (h : SetupConfig c = .ok c') :
    ∃ d r e, c.Default = some d ∧ c.REPL = some r ∧ c.Env = some e ∧
      c' = { c with
        Default := some { d with ProtoFile := normalized d.ProtoFile,
                                 ProtoPath := normalized d.ProtoPath },
        REPL := some { r with Server := c.Server },
        Env := some { e with Server := c.Server },
        Request := some (c.Request.getD defaultRequest),
        Input := some (c.Input.getD defaultInput) } := by
  obtain ⟨cd, cm, cr, ce, cs, cl, cq, ci⟩ := c
  cases cd with
  | none => simp [SetupConfig] at h
  | some d =>
    cases cr with
    | none => simp [SetupConfig] at h
    | some r =>
      cases ce with
      | none => simp [SetupConfig] at h
      | some e =>
        refine ⟨d, r, e, rfl, rfl, rfl, ?_⟩
        simp only [SetupConfig] at h
        injection h with h
        subst h
        obtain ⟨pp, pf, pk, sv⟩ := d
        cases cq <;> cases ci <;>
          by_cases h1 : isPlaceholder pf <;> by_cases h2 : isPlaceholder pp <;>
          simp [normalized, h1, h2]

/-- `SetupConfig` completes on every record whose Default, REPL and Env are present. -/
theorem SetupConfig_completes (c : Config) (d : Default) (r : REPL) (e : Env)
    (hd : c.Default = some d) (hr : c.REPL = some r) (he : c.Env = some e) :
    ∃ c', SetupConfig c = .ok c' := by
  obtain ⟨cd, cm, cr, ce, cs, cl, cq, ci⟩ := c
  simp only at hd hr he
  subst hd hr he
  exact ⟨_, rfl⟩

/-- C7. Setup is idempotent: when `SetupConfig` completes on `c` with result
`c1`, a second application completes as well and returns `c1` again. -/
theorem SetupConfig_idempotent (c c1 : Config) (h : SetupConfig c = .ok c1) :
    SetupConfig c1 = .ok c1 := by
  obtain ⟨d, r, e, hd, hr, he, hc⟩ := SetupConfig_ok c c1 h
  subst hc
  cases hq : c.Request <;> cases hi : c.Input <;>
    simp [SetupConfig, isPlaceholder_normalized]

theorem SetupConfig_idempotent_witness :
    SetupConfig sampleGlobal = .ok sampleResolved ∧
      SetupConfig sampleResolved = .ok sampleResolved :=
  ⟨rfl, SetupConfig_idempotent sampleGlobal sampleResolved rfl⟩

/-- C8. Shared-server invariant: when `SetupConfig` completes on `c` with result
`c1`, the Server of `c1` is the Server of `c` unchanged, REPL and Env are
present in `c1`, and REPL.Server and Env.Server both equal the Server of `c`
(hence each other), whatever they held in `c`. -/
theorem SetupConfig_shares_server (c c1 : Config) (h : SetupConfig c = .ok c1) :
    c1.Server = c.Server ∧
      ∃ r e, c1.REPL = some r ∧ c1.Env = some e ∧
        r.Server = c.Server ∧ e.Server = c.Server ∧ r.Server = e.Server := by
  obtain ⟨d, r, e, hd, hr, he, hc⟩ := SetupConfig_ok c c1 h
  subst hc
  exact ⟨rfl, _, _, rfl, rfl, rfl, rfl, rfl⟩

theorem SetupConfig_shares_server_witness :
    SetupConfig staleLinks = .ok sampleResolved ∧
      (sampleResolved.Server = staleLinks.Server ∧
        ∃ r e, sampleResolved.REPL = some r ∧ sampleResolved.Env = some e ∧
          r.Server = staleLinks.Server ∧ e.Server = staleLinks.Server ∧
          r.Server = e.Server) :=
  ⟨rfl, SetupConfig_shares_server staleLinks sampleResolved rfl⟩

/-- C9. Placeholder normalization: when `SetupConfig` completes on `c` with result
`c1`, Default.ProtoFile of `c1` is the empty list if it was exactly the
one-element list holding the empty string in `c` and is unchanged otherwise,
likewise Default.ProtoPath, and neither is that one-element list in `c1`. -/
theorem SetupConfig_normalizes_placeholders (c c1 : Config) (h : SetupConfig c = .ok c1) :
    ∃ d d1, c.Default = some d ∧ c1.Default = some d1 ∧
      d1.ProtoFile = (if d.ProtoFile = [""] then [] else d.ProtoFile) ∧
      d1.ProtoPath = (if d.ProtoPath = [""] then [] else d.ProtoPath) ∧
      d1.ProtoFile ≠ [""] ∧ d1.ProtoPath ≠ [""] := by
  obtain ⟨d, r, e, hd, hr, he, hc⟩ := SetupConfig_ok c c1 h
  subst hc
  exact ⟨d, _, hd, rfl, normalized_eq _, normalized_eq _,
    normalized_ne_placeholder _, normalized_ne_placeholder _⟩

theorem SetupConfig_normalizes_placeholders_witness :
    SetupConfig mixedPlaceholders = .ok mixedPlaceholdersResolved ∧
      ∃ d d1, mixedPlaceholders.Default = some d ∧
        mixedPlaceholdersResolved.Default = some d1 ∧
        d1.ProtoFile = (if d.ProtoFile = [""] then [] else d.ProtoFile) ∧
        d1.ProtoPath = (if d.ProtoPath = [""] then [] else d.ProtoPath) ∧
        d1.ProtoFile ≠ [""] ∧ d1.ProtoPath ≠ [""] :=
  ⟨rfl, SetupConfig_normalizes_placeholders mixedPlaceholders mixedPlaceholdersResolved rfl⟩

/-- C10, as stated, fails: on a configuration whose Default is nil (all else
present) `SetupConfig` panics with a nil dereference at line 112. -/
theorem SetupConfig_panics_without_default :
    SetupConfig { sampleGlobal with Default := none } = .error .nilDeref := rfl

/-- C10, amended. `SetupConfig` completes exactly on the configurations whose
Default, REPL and Env are present; Server, Meta, Log, Request and Input may be
nil.  On every other configuration it panics with a nil dereference. -/
theorem SetupConfig_completes_iff (c : Config) :
    ((∃ c1, SetupConfig c = .ok c1) ↔
        (c.Default ≠ none ∧ c.REPL ≠ none ∧ c.Env ≠ none)) ∧
      ((c.Default = none ∨ c.REPL = none ∨ c.Env = none) ↔
        SetupConfig c = .error .nilDeref) := by
  obtain ⟨cd, cm, cr, ce, cs, cl, cq, ci⟩ := c
  cases cd <;> cases cr <;> cases ce <;> simp [SetupConfig]

/-! ## Properties of the local discovery -/

/-- Whenever `os.Stat` of the current-directory file reports not-exist,
`getLocalConfig` returns `(nil, nil)`: line 175 when the lookup found nothing or
failed, line 179 with the nil `err` of a successful lookup. -/
theorem getLocalConfig_of_notExist (w : World) (e : GoError)
    (hs : w.stat localConfigName = some e) (hn : e.notExist = true) :
    getLocalConfig w = (none, none) := by
  unfold getLocalConfig
  rw [hs]
  simp only [isNotExist, hn, if_true]
  rcases hl : lookupProjectRoot w with ⟨f, err1⟩
  by_cases hc : f = none ∨ err1 ≠ none
  · simp [hc]
  · have : err1 = none := by
      by_contra h
      exact hc (Or.inr h)
    simp [hc, this]

/-- With a global configuration `g` and the local discovery returning
`(nil, nil)`, `Get` is `SetupConfig` on `g`. -/
theorem Get_of_no_local (w : World) (g : Config)
    (hg : w.decodeGlobal = .ok g) (hl : getLocalConfig w = (none, none)) :
    Get w = SetupConfig g := by
  unfold Get
  rw [hg]
  simp only
  rw [hl]

/-- With a global configuration and the local discovery returning an error,
`Get` panics with that error. -/
theorem Get_of_local_error (w : World) (g : Config) (l : Option Config) (e : GoError)
    (hg : w.decodeGlobal = .ok g) (hl : getLocalConfig w = (l, some e)) :
    Get w = .error (.err e) := by
  unfold Get
  rw [hg]
  simp only
  rw [hl]
  cases l <;> rfl

/-- With a global configuration `g` and a local configuration `l` found, `Get`
is `SetupConfig` on the result of `mapstruct.Map`. -/
theorem Get_of_local (w : World) (g l : Config)
    (hg : w.decodeGlobal = .ok g) (hl : getLocalConfig w = (some l, none)) :
    Get w = (match w.mapstructMap g l with
             | .error err => .error (.err err)
             | .ok c => SetupConfig c) := by
  unfold Get
  rw [hg]
  simp only
  rw [hl]

/-- The configuration `Get` hands to `SetupConfig`: the global configuration `g`
when the local discovery returns `(nil, nil)` (line 149), the result of
`mapstruct.Map` on `g` and the local configuration otherwise (line 159). -/
theorem Get_ok_input (w : World) (g c1 : Config)
    (hg : w.decodeGlobal = .ok g) (h : Get w = .ok c1) :
    ∃ c, ((getLocalConfig w = (none, none) ∧ c = g) ∨
          (∃ l, getLocalConfig w = (some l, none) ∧ w.mapstructMap g l = .ok c)) ∧
      SetupConfig c = .ok c1 := by
  unfold Get at h
  rw [hg] at h
  simp only at h
  rcases hl : getLocalConfig w with ⟨l, err⟩
  rw [hl] at h
  cases err with
  | some e => simp at h
  | none =>
    cases l with
    | none => exact ⟨g, Or.inl ⟨rfl, rfl⟩, h⟩
    | some loc =>
      simp only at h
      cases hm : w.mapstructMap g loc with
      | error e => rw [hm] at h; simp at h
      | ok m =>
        rw [hm] at h
        exact ⟨m, Or.inr ⟨loc, rfl, hm⟩, h⟩

/-- The current-directory file found and opened: `getLocalConfig` returns what
the TOML library left in `conf` together with its error. -/
theorem getLocalConfig_of_cwd_file (w : World) (content : String)
    (hs : w.stat localConfigName = none) (ho : w.openFile localConfigName = .ok content) :
    getLocalConfig w = (some (w.tomlDecode content).1, (w.tomlDecode content).2) := by
  unfold getLocalConfig
  rw [hs]
  simp only
  rw [ho]

/-- A malformed override file in the current directory makes `getLocalConfig`
return the decode error and `Get` panic with it. -/
theorem Get_of_cwd_malformed (w : World) (g : Config) (content : String) (err : GoError)
    (hg : w.decodeGlobal = .ok g)
    (hs : w.stat localConfigName = none) (ho : w.openFile localConfigName = .ok content)
    (hd : (w.tomlDecode content).2 = some err) :
    (getLocalConfig w).2 = some err ∧ Get w = .error (.err err) := by
  have h := getLocalConfig_of_cwd_file w content hs ho
  rw [hd] at h
  exact ⟨by rw [h], Get_of_local_error w g _ err hg h⟩

/-- A buffer of length 0 holds the empty string. -/
theorem eq_empty_of_utf8ByteSize (t : String) (h : t.utf8ByteSize = 0) : t = "" := by
  obtain ⟨cs⟩ := t
  cases cs with
  | nil => rfl
  | cons c rest =>
    exfalso
    have hc : 0 < c.utf8Size := Char.utf8Size_pos c
    simp only [String.utf8ByteSize, String.utf8ByteSize.go] at h
    omega

/-- The lookup returns no file when git fails, writes to its error stream, or
the file at the reported root does not exist. -/
theorem lookupProjectRoot_no_file (w : World)
    (h : w.gitRun ≠ none ∨ w.gitStderr ≠ "" ∨
      isNotExist (w.stat (w.filepathJoin w.gitStdout localConfigName)) = true) :
    (lookupProjectRoot w).1 = none := by
  unfold lookupProjectRoot
  cases hgit : w.gitRun with
  | some err => rfl
  | none =>
    simp only
    by_cases hb : w.gitStderr.utf8ByteSize ≠ 0
    · simp [hb]
    · have hempty : w.gitStderr = "" := by
        have h0 : w.gitStderr.utf8ByteSize = 0 := by omega
        exact eq_empty_of_utf8ByteSize _ h0
      rcases h with h | h | h
      · exact absurd hgit h
      · exact absurd hempty h
      · simp [hb, h]

/-- The lookup returns the opened file when git succeeds silently and the file
at the reported root exists and opens. -/
theorem lookupProjectRoot_found (w : World) (content : String)
    (hgit : w.gitRun = none) (herr : w.gitStderr = "")
    (hroot : w.stat (w.filepathJoin w.gitStdout localConfigName) = none)
    (hopen : w.openFile (w.filepathJoin w.gitStdout localConfigName) = .ok content) :
    lookupProjectRoot w = (some (.file content), none) := by
  unfold lookupProjectRoot
  rw [hgit]
  simp only
  rw [herr, hroot, hopen]
  rfl

/-- C1, evaluated on the code. In every state of the claim (no override file in
the current directory, git succeeding with an empty error stream, the file at
the reported root existing, opening and decoding without error) the lookup
does return the opened root file, yet `getLocalConfig` returns `(nil, nil)`:
the file is closed at line 177 and line 179 returns without decoding it. -/
theorem getLocalConfig_drops_root_file (w : World) (e : GoError) (content : String)
    (hs : w.stat localConfigName = some e) (hn : e.notExist = true)
    (hgit : w.gitRun = none) (herr : w.gitStderr = "")
    (hroot : w.stat (w.filepathJoin w.gitStdout localConfigName) = none)
    (hopen : w.openFile (w.filepathJoin w.gitStdout localConfigName) = .ok content)
    (_hdec : (w.tomlDecode content).2 = none) :
    lookupProjectRoot w = (some (.file content), none) ∧
      getLocalConfig w = (none, none) :=
  ⟨lookupProjectRoot_found w content hgit herr hroot hopen,
   getLocalConfig_of_notExist w e hs hn⟩

theorem getLocalConfig_drops_root_file_witness :
    (belowRoot sampleGlobal "[server]\ntls = true\n" (onlyTLS, none)).tomlDecode
        "[server]\ntls = true\n" = (onlyTLS, none) ∧
      lookupProjectRoot (belowRoot sampleGlobal "[server]\ntls = true\n" (onlyTLS, none)) =
        (some (.file "[server]\ntls = true\n"), none) ∧
      getLocalConfig (belowRoot sampleGlobal "[server]\ntls = true\n" (onlyTLS, none)) =
        (none, none) :=
  ⟨rfl, getLocalConfig_drops_root_file
    (belowRoot sampleGlobal "[server]\ntls = true\n" (onlyTLS, none)) enoent
    "[server]\ntls = true\n" (by decide) rfl rfl rfl (by decide) rfl rfl⟩

/-- C2, evaluated on the code. When the override file is found at the root of
the working tree and does not decode, `getLocalConfig` returns `(nil, nil)` and
`Get` is `SetupConfig` on the global configuration: the file is never decoded,
so its error is never seen. -/
theorem Get_ignores_malformed_root_file (w : World) (g : Config) (e err : GoError)
    (content : String) (hg : w.decodeGlobal = .ok g)
    (hs : w.stat localConfigName = some e) (hn : e.notExist = true)
    (hgit : w.gitRun = none) (herr : w.gitStderr = "")
    (hroot : w.stat (w.filepathJoin w.gitStdout localConfigName) = none)
    (hopen : w.openFile (w.filepathJoin w.gitStdout localConfigName) = .ok content)
    (_hdec : (w.tomlDecode content).2 = some err) :
    lookupProjectRoot w = (some (.file content), none) ∧
      getLocalConfig w = (none, none) ∧ Get w = SetupConfig g :=
  ⟨lookupProjectRoot_found w content hgit herr hroot hopen,
   getLocalConfig_of_notExist w e hs hn,
   Get_of_no_local w g hg (getLocalConfig_of_notExist w e hs hn)⟩

theorem Get_ignores_malformed_root_file_witness :
    (belowRoot sampleGlobal "[server" (zeroConfig, some badToml)).tomlDecode "[server" =
        (zeroConfig, some badToml) ∧
      Get (belowRoot sampleGlobal "[server" (zeroConfig, some badToml)) = .ok sampleResolved :=
  ⟨rfl, (Get_ignores_malformed_root_file
    (belowRoot sampleGlobal "[server" (zeroConfig, some badToml)) sampleGlobal enoent badToml
    "[server" rfl (by decide) rfl rfl rfl (by decide) rfl rfl).2.2⟩

/-- C3, as stated, fails: with no override file in the current directory and the
file at the root existing but not opening (permission denied), the lookup
returns that error, `getLocalConfig` returns `(nil, nil)` by the test of line
174, and `Get` returns the global configuration. -/
theorem getLocalConfig_swallows_root_open_error :
    lookupProjectRoot (belowRootUnreadable sampleGlobal) = (some .nilFile, some eacces) ∧
      getLocalConfig (belowRootUnreadable sampleGlobal) = (none, none) ∧
      Get (belowRootUnreadable sampleGlobal) = .ok sampleResolved := by
  refine ⟨by decide, by decide, ?_⟩
  rw [Get_of_no_local (belowRootUnreadable sampleGlobal) sampleGlobal rfl (by decide)]
  rfl

/-- C3, amended. With the global configuration decoded: when `os.Stat` of the
current-directory file fails with an error other than not-exist, or succeeds
and `os.Open` of that file fails, `getLocalConfig` returns that error with no
configuration and `Get` panics with it; when the current-directory file does
not exist and the root lookup fails (git fails, writes to its error stream, or
the root file does not open), `getLocalConfig` returns `(nil, nil)` and `Get`
is `SetupConfig` on the global configuration. -/
theorem getLocalConfig_io_errors (w : World) (g : Config) (e : GoError)
    (hg : w.decodeGlobal = .ok g) :
    (((w.stat localConfigName = some e ∧ e.notExist = false) ∨
        (w.stat localConfigName = none ∧ w.openFile localConfigName = .error e)) →
      getLocalConfig w = (none, some e) ∧ Get w = .error (.err e)) ∧
    ((w.stat localConfigName = some e ∧ e.notExist = true ∧
        (lookupProjectRoot w).2 ≠ none) →
      getLocalConfig w = (none, none) ∧ Get w = SetupConfig g) := by
  constructor
  · intro h
    have hl : getLocalConfig w = (none, some e) := by
      rcases h with ⟨hs, hn⟩ | ⟨hs, ho⟩
      · unfold getLocalConfig
        rw [hs]
        simp [isNotExist, hn]
      · unfold getLocalConfig
        rw [hs]
        simp only
        rw [ho]
    exact ⟨hl, Get_of_local_error w g none e hg hl⟩
  · rintro ⟨hs, hn, -⟩
    have hl := getLocalConfig_of_notExist w e hs hn
    exact ⟨hl, Get_of_no_local w g hg hl⟩

theorem getLocalConfig_io_errors_witness :
    (getLocalConfig (cwdStatDenied sampleGlobal) = (none, some eacces) ∧
        Get (cwdStatDenied sampleGlobal) = .error (.err eacces)) ∧
      (getLocalConfig (cwdUnreadable sampleGlobal) = (none, some eacces) ∧
        Get (cwdUnreadable sampleGlobal) = .error (.err eacces)) ∧
      (getLocalConfig (outsideWorkTree sampleGlobal) = (none, none) ∧
        Get (outsideWorkTree sampleGlobal) = SetupConfig sampleGlobal) :=
  ⟨(getLocalConfig_io_errors (cwdStatDenied sampleGlobal) sampleGlobal eacces rfl).1
      (Or.inl ⟨by decide, rfl⟩),
   (getLocalConfig_io_errors (cwdUnreadable sampleGlobal) sampleGlobal eacces rfl).1
      (Or.inr ⟨by decide, rfl⟩),
   (getLocalConfig_io_errors (outsideWorkTree sampleGlobal) sampleGlobal enoent rfl).2
      ⟨by decide, rfl, by decide⟩⟩

/-- C4, as stated, fails: outside any working tree and with no override file,
a global configuration whose REPL is nil makes `Get` panic with a nil
dereference (line 118, reached from line 149) instead of returning. -/
theorem Get_panics_on_global_without_repl :
    getLocalConfig (outsideWorkTree { sampleGlobal with REPL := none }) = (none, none) ∧
      Get (outsideWorkTree { sampleGlobal with REPL := none }) = .error .nilDeref := by
  refine ⟨by decide, ?_⟩
  rw [Get_of_no_local (outsideWorkTree { sampleGlobal with REPL := none })
    { sampleGlobal with REPL := none } rfl (by decide)]
  rfl

/-- C4, amended. For every global configuration `g`, whenever no override file
exists in the current directory and either the git query fails (its run fails
or it writes to its error stream) or the root-level override file does not
exist, the lookup returns no file, `getLocalConfig` returns `(nil, nil)`, and
`Get` is `SetupConfig` on `g` whatever `mapstruct.Map` would do; if moreover the
Default, REPL and Env of `g` are present, `Get` returns the configuration that
`SetupConfig` makes of `g`. -/
theorem Get_without_local_override (w : World) (g : Config) (e : GoError)
    (hg : w.decodeGlobal = .ok g)
    (hs : w.stat localConfigName = some e) (hn : e.notExist = true)
    (hroot : w.gitRun ≠ none ∨ w.gitStderr ≠ "" ∨
      isNotExist (w.stat (w.filepathJoin w.gitStdout localConfigName)) = true) :
    (lookupProjectRoot w).1 = none ∧
      getLocalConfig w = (none, none) ∧
      (∀ m : Config → Config → Except GoError Config,
        Get { w with mapstructMap := m } = SetupConfig g) ∧
      (g.Default ≠ none → g.REPL ≠ none → g.Env ≠ none →
        ∃ c, SetupConfig g = .ok c ∧ Get w = .ok c) := by
  have hl := getLocalConfig_of_notExist w e hs hn
  refine ⟨lookupProjectRoot_no_file w hroot, hl, ?_, ?_⟩
  · intro m
    exact Get_of_no_local { w with mapstructMap := m } g hg
      (getLocalConfig_of_notExist { w with mapstructMap := m } e hs hn)
  · intro hd hr he
    obtain ⟨d, hd1⟩ := exists_of_ne_none _ hd
    obtain ⟨r, hr1⟩ := exists_of_ne_none _ hr
    obtain ⟨v, he1⟩ := exists_of_ne_none _ he
    obtain ⟨c, hc⟩ := SetupConfig_completes g d r v hd1 hr1 he1
    exact ⟨c, hc, by rw [Get_of_no_local w g hg hl, hc]⟩

theorem Get_without_local_override_witness :
    (lookupProjectRoot (outsideWorkTree sampleGlobal)).1 = none ∧
      getLocalConfig (outsideWorkTree sampleGlobal) = (none, none) ∧
      (∀ m : Config → Config → Except GoError Config,
        Get { outsideWorkTree sampleGlobal with mapstructMap := m } =
          SetupConfig sampleGlobal) ∧
      (sampleGlobal.Default ≠ none → sampleGlobal.REPL ≠ none → sampleGlobal.Env ≠ none →
        ∃ c, SetupConfig sampleGlobal = .ok c ∧ Get (outsideWorkTree sampleGlobal) = .ok c) :=
  Get_without_local_override (outsideWorkTree sampleGlobal) sampleGlobal enoent rfl
    (by decide) rfl (Or.inl (by decide))

/-- C6, as stated, fails: a global configuration whose Request is present with
an empty header list passes through `SetupConfig` unchanged in that field, so
`Get` returns a configuration whose Request.Header has length 0. -/
theorem Get_returns_empty_header :
    ∃ c q, Get (outsideWorkTree emptyHeaderGlobal) = .ok c ∧
      c.Request = some q ∧ q.Header.length = 0 := by
  refine ⟨{ sampleResolved with Request := some { Header := [], Web := true } },
    { Header := [], Web := true }, ?_, rfl, rfl⟩
  rw [Get_of_no_local (outsideWorkTree emptyHeaderGlobal) emptyHeaderGlobal rfl (by decide)]
  rfl

/-- C6, amended. Let `Get` return `c1` from the global configuration `g`.  Then
`c1` is the result of `SetupConfig` on the configuration `Get` hands to it (`g`
itself when no local configuration is found, the result of `mapstruct.Map`
otherwise), and for every configuration `c` that `SetupConfig` takes to `c1`,
that one included: Request is present in `c1`; it is the default Request, whose
Header is the single entry (grpc-client, evans), when the Request of `c` was
nil, and the Request of `c` unchanged otherwise; hence Request.Header of `c1`
has length at least 1 exactly when the Request of `c` was nil or already had a
non-empty Header. -/
theorem Get_request_present (w : World) (g c1 : Config)
    (hg : w.decodeGlobal = .ok g) (h : Get w = .ok c1) :
    (∃ c, ((getLocalConfig w = (none, none) ∧ c = g) ∨
            (∃ l, getLocalConfig w = (some l, none) ∧ w.mapstructMap g l = .ok c)) ∧
        SetupConfig c = .ok c1) ∧
      (∀ c, SetupConfig c = .ok c1 →
        ∃ q, c1.Request = some q ∧
          (c.Request = none →
            q.Header = [{ Key := "grpc-client", Val := "evans" }] ∧ q.Header.length = 1) ∧
          (∀ q0, c.Request = some q0 → q = q0) ∧
          (1 ≤ q.Header.length ↔
            (c.Request = none ∨ ∃ q0, c.Request = some q0 ∧ 1 ≤ q0.Header.length))) := by
  refine ⟨Get_ok_input w g c1 hg h, ?_⟩
  intro c hc
  obtain ⟨d, r, e, hd, hr, he, heq⟩ := SetupConfig_ok c c1 hc
  refine ⟨c.Request.getD defaultRequest, by rw [heq], ?_, ?_, ?_⟩
  · intro hn
    rw [hn]
    exact ⟨rfl, rfl⟩
  · intro q0 hq
    rw [hq]
    rfl
  · cases hq : c.Request with
    | none => simp [defaultRequest]
    | some q0 => simp

theorem Get_request_present_witness :
    Get (outsideWorkTree { sampleGlobal with Request := none }) = .ok sampleResolved ∧
      SetupConfig { sampleGlobal with Request := none } = .ok sampleResolved ∧
      ∃ q, sampleResolved.Request = some q ∧
        (({ sampleGlobal with Request := none } : Config).Request = none →
          q.Header = [{ Key := "grpc-client", Val := "evans" }] ∧ q.Header.length = 1) ∧
        (∀ q0, ({ sampleGlobal with Request := none } : Config).Request = some q0 → q = q0) ∧
        (1 ≤ q.Header.length ↔
          (({ sampleGlobal with Request := none } : Config).Request = none ∨
            ∃ q0, ({ sampleGlobal with Request := none } : Config).Request = some q0 ∧
              1 ≤ q0.Header.length)) :=
  have h : Get (outsideWorkTree { sampleGlobal with Request := none }) = .ok sampleResolved := by
    rw [Get_of_no_local (outsideWorkTree { sampleGlobal with Request := none })
      { sampleGlobal with Request := none } rfl (by decide)]
    rfl
  ⟨h, rfl, (Get_request_present (outsideWorkTree { sampleGlobal with Request := none })
    { sampleGlobal with Request := none } sampleResolved rfl h).2
    { sampleGlobal with Request := none } rfl⟩

/-! ## Properties of the merge followed by SetupConfig -/

theorem overlaid_string (g l : String) : Overlaid "" g l (overlayString g l) := by
  unfold Overlaid overlayString
  by_cases h : l = "" <;> simp [h]

theorem overlaid_bool (g l : Bool) : Overlaid false g l (overlayBool g l) := by
  unfold Overlaid overlayBool
  cases l <;> simp

theorem overlaid_list {α : Type} (g l : List α) : Overlaid [] g l (overlayList g l) := by
  unfold Overlaid overlayList
  cases l <;> simp

theorem ptrOverlaid_overlayPtr {α : Type} (P : α → α → α → Prop) (f : α → α → α)
    (hf : ∀ a b, P a b (f a b)) (g l : Option α) :
    PtrOverlaid P g l (overlayPtr f g l) := by
  unfold PtrOverlaid
  cases g <;> cases l <;> simp [overlayPtr, hf]

theorem serverOverlaid_overlay (g l : Server) : ServerOverlaid g l (overlayServer g l) :=
  ⟨overlaid_string _ _, overlaid_string _ _, overlaid_bool _ _, overlaid_bool _ _⟩

theorem defaultOverlaid_overlay (g l : Default) : DefaultOverlaid g l (overlayDefault g l) :=
  ⟨overlaid_list _ _, overlaid_list _ _, overlaid_string _ _, overlaid_string _ _⟩

theorem metaOverlaid_overlay (g l : Meta) : MetaOverlaid g l (overlayMeta g l) :=
  ⟨overlaid_string _ _, overlaid_bool _ _, overlaid_string _ _⟩

theorem replOverlaid_overlay (g l : REPL) : REPLOverlaid g l (overlayREPL g l) :=
  ⟨ptrOverlaid_overlayPtr _ _ serverOverlaid_overlay _ _, overlaid_string _ _,
   overlaid_bool _ _, overlaid_bool _ _, overlaid_string _ _⟩

theorem envOverlaid_overlay (g l : Env) : EnvOverlaid g l (overlayEnv g l) :=
  ptrOverlaid_overlayPtr _ _ serverOverlaid_overlay _ _

theorem logOverlaid_overlay (g l : Log) : LogOverlaid g l (overlayLog g l) :=
  overlaid_string _ _

theorem requestOverlaid_overlay (g l : Request) : RequestOverlaid g l (overlayRequest g l) :=
  ⟨overlaid_list _ _, overlaid_bool _ _⟩

theorem inputOverlaid_overlay (g l : Input) : InputOverlaid g l (overlayInput g l) :=
  overlaid_string _ _

/-- The merge engine of the specification obeys the overlay rule on every field. -/
theorem specMerge_overlaid (g l : Config) : ConfigOverlaid g l (specMerge g l) :=
  ⟨ptrOverlaid_overlayPtr _ _ defaultOverlaid_overlay _ _,
   ptrOverlaid_overlayPtr _ _ metaOverlaid_overlay _ _,
   ptrOverlaid_overlayPtr _ _ replOverlaid_overlay _ _,
   ptrOverlaid_overlayPtr _ _ envOverlaid_overlay _ _,
   ptrOverlaid_overlayPtr _ _ serverOverlaid_overlay _ _,
   ptrOverlaid_overlayPtr _ _ logOverlaid_overlay _ _,
   ptrOverlaid_overlayPtr _ _ requestOverlaid_overlay _ _,
   ptrOverlaid_overlayPtr _ _ inputOverlaid_overlay _ _⟩

/-- The fields a completed `SetupConfig` leaves as it found them. -/
theorem SetupConfig_frame (m c : Config) (h : SetupConfig m = .ok c) : SetupFrame m c := by
  obtain ⟨d, r, e, hd, hr, he, hc⟩ := SetupConfig_ok m c h
  subst hc
  refine ⟨rfl, rfl, rfl, ?_, ?_, ⟨d, _, hd, rfl, rfl, rfl, ?_, ?_⟩,
    ⟨r, _, hr, rfl, rfl, rfl, rfl, rfl⟩⟩
  · intro q hq
    simp [hq]
  · intro i hi
    simp [hi]
  · intro hp
    simp [normalized_eq, hp]
  · intro hp
    simp [normalized_eq, hp]

/-- The merge of a local record that sets only `Server.TLS = true`. -/
theorem specMerge_onlyTLS (g : Config) :
    specMerge g onlyTLS =
      { g with Server := some (match g.Server with
                               | none => { Host := "", Port := "", Reflection := false,
                                           TLS := true }
                               | some s => { s with TLS := true }) } := by
  obtain ⟨cd, cm, cr, ce, cs, cl, cq, ci⟩ := g
  cases cd <;> cases cm <;> cases cr <;> cases ce <;> cases cs <;> cases cl <;>
    cases cq <;> cases ci <;>
    simp [specMerge, onlyTLS, zeroConfig, overlayPtr, overlayServer, overlayString,
      overlayBool]

/-- C5, as stated, fails in its general clause: with the global `sampleGlobal`
and a local file that sets only `Server.TLS = true`, the configuration `Get`
returns does not obey the overlay rule on every field.  The local record
leaves Default and REPL at their zero value, yet Default.ProtoFile is the
empty list where the global holds the placeholder, and REPL.Server is the
merged Server where the global holds nil: `SetupConfig` rewrote both. -/
theorem Get_result_not_overlaid :
    ∃ c dg dc rg rc,
      Get (withCwdFile sampleGlobal "[server]\ntls = true\n" (onlyTLS, none)) = .ok c ∧
      ¬ ConfigOverlaid sampleGlobal onlyTLS c ∧
      onlyTLS.Default = none ∧ sampleGlobal.Default = some dg ∧ c.Default = some dc ∧
      dg.ProtoFile = [""] ∧ dc.ProtoFile = [] ∧
      onlyTLS.REPL = none ∧ sampleGlobal.REPL = some rg ∧ c.REPL = some rc ∧
      rg.Server = none ∧ rc.Server = c.Server ∧ c.Server ≠ none := by
  refine ⟨sampleWithTLS, _, _, _, _, ?_, ?_, rfl, rfl, rfl, rfl, rfl, rfl, rfl, rfl, rfl, rfl,
    by decide⟩
  · rw [Get_of_local (withCwdFile sampleGlobal "[server]\ntls = true\n" (onlyTLS, none))
      sampleGlobal onlyTLS rfl (by decide)]
    rfl
  · intro h
    have h1 := h.1.1 rfl
    exact absurd h1 (by decide)

/-- C5, amended.  With `mapstruct.Map` the merge engine of the specification,
a global configuration `g` and a local configuration `l` found: `Get` is
`SetupConfig` on the merge of `g` and `l`, and returns a configuration whenever
the Default, REPL and Env of `g` are present.  The merge obeys the overlay rule
on every field (a field `l` leaves at its zero value keeps the value of `g`, a
field `l` sets takes the value of `l`, recursively through the records), and
every configuration `c` that `Get` returns agrees with the merge on every
field outside those `SetupConfig` rewrites (the frame of `SetupConfig`).  When
`l` sets only `Server.TLS = true`, `c` has `Server.TLS = true` and the Host,
Port and Reflection of the Server of `g`. -/
theorem Get_merge_precedence (w : World) (g l : Config)
    (hg : w.decodeGlobal = .ok g) (hl : getLocalConfig w = (some l, none))
    (hm : w.mapstructMap = fun a b => .ok (specMerge a b)) :
    Get w = SetupConfig (specMerge g l) ∧
      ConfigOverlaid g l (specMerge g l) ∧
      (g.Default ≠ none → g.REPL ≠ none → g.Env ≠ none → ∃ c, Get w = .ok c) ∧
      (∀ c, Get w = .ok c →
        SetupFrame (specMerge g l) c ∧
        (l = onlyTLS →
          ∃ sc, c.Server = some sc ∧ sc.TLS = true ∧
            ∀ s, g.Server = some s →
              sc.Host = s.Host ∧ sc.Port = s.Port ∧ sc.Reflection = s.Reflection)) := by
  have hget : Get w = SetupConfig (specMerge g l) := by
    rw [Get_of_local w g l hg hl, hm]
  refine ⟨hget, specMerge_overlaid g l, ?_, ?_⟩
  · intro hd hr he
    obtain ⟨d, hd1⟩ := exists_of_ne_none _ hd
    obtain ⟨r, hr1⟩ := exists_of_ne_none _ hr
    obtain ⟨v, he1⟩ := exists_of_ne_none _ he
    have hd2 : ∃ d2, (specMerge g l).Default = some d2 := by
      cases hx : l.Default <;> simp [specMerge, overlayPtr, hd1, hx]
    have hr2 : ∃ r2, (specMerge g l).REPL = some r2 := by
      cases hx : l.REPL <;> simp [specMerge, overlayPtr, hr1, hx]
    have he2 : ∃ e2, (specMerge g l).Env = some e2 := by
      cases hx : l.Env <;> simp [specMerge, overlayPtr, he1, hx]
    obtain ⟨d2, hd3⟩ := hd2
    obtain ⟨r2, hr3⟩ := hr2
    obtain ⟨e2, he3⟩ := he2
    obtain ⟨c, hc⟩ := SetupConfig_completes (specMerge g l) d2 r2 e2 hd3 hr3 he3
    exact ⟨c, by rw [hget, hc]⟩
  · intro c hc
    rw [hget] at hc
    have hframe := SetupConfig_frame (specMerge g l) c hc
    refine ⟨hframe, ?_⟩
    intro hl1
    subst hl1
    have hs : c.Server = (specMerge g onlyTLS).Server := hframe.1
    rw [specMerge_onlyTLS] at hs
    cases hgs : g.Server with
    | none =>
      rw [hgs] at hs
      exact ⟨_, hs, rfl, fun s h => by cases h⟩
    | some s0 =>
      rw [hgs] at hs
      refine ⟨_, hs, rfl, ?_⟩
      intro s h
      cases h
      exact ⟨rfl, rfl, rfl⟩

theorem Get_merge_precedence_witness :
    Get (withCwdFile sampleGlobal "[server]\ntls = true\n" (onlyTLS, none)) =
        .ok sampleWithTLS ∧
      ∃ sc, sampleWithTLS.Server = some sc ∧ sc.TLS = true ∧
        ∀ s, sampleGlobal.Server = some s →
          sc.Host = s.Host ∧ sc.Port = s.Port ∧ sc.Reflection = s.Reflection :=
  have h := Get_merge_precedence
    (withCwdFile sampleGlobal "[server]\ntls = true\n" (onlyTLS, none)) sampleGlobal onlyTLS
    rfl (by decide) rfl
  have hc : Get (withCwdFile sampleGlobal "[server]\ntls = true\n" (onlyTLS, none)) =
      .ok sampleWithTLS := h.1.trans rfl
  ⟨hc, (h.2.2.2 sampleWithTLS hc).2 rfl⟩

end Evans
